import Mathlib

/-!
Shallow embedding of the toggle-synchronization and evaluation engine of
`src/index.ts` (class `UnleashClient`).  Pure data is translated to Lean
structures; the stateful client is a `ClientState` record transformed by
explicit step functions; side effects (event emission, metrics counts,
storage writes) are returned as explicit values.  External collaborators
whose code is not part of the analysed source (the storage providers, the
events handler, the metrics module, the `tiny-emitter` bus) are modelled at
the interface boundary described in section 6 of the specification.
-/

namespace Unleash

/-- Variant payload (`payload?: \x7btype, value\x7d` in `IVariant`). -/
structure Payload where
  type : String
  value : String
deriving DecidableEq, Repr

/-- `IVariant` from src/index.ts lines 43-50. -/
structure IVariant where
  name : String
  enabled : Bool
  payload : Option Payload := none
deriving DecidableEq, Repr

/-- `IToggle` from src/index.ts lines 52-57. -/
structure IToggle where
  name : String
  enabled : Bool
  variant : IVariant
  impressionData : Bool
deriving DecidableEq, Repr

/-- `defaultVariant` from src/index.ts line 72: the sentinel returned for a
missing toggle. -/
def defaultVariant : IVariant := { name := "disabled", enabled := false }

/-- `storeKey` from src/index.ts line 73: the fixed cache key. -/
def storeKey : String := "repo"

/-- Evaluation context (`type IContext = IStaticContext & IMutableContext`,
src/index.ts lines 11-25).  `none` models an absent optional field; the
`properties` map is an association list in JS-object key order. -/
structure IContext where
  appName : String
  environment : Option String := none
  userId : Option String := none
  sessionId : Option String := none
  remoteAddress : Option String := none
  properties : Option (List (String × String)) := none
deriving DecidableEq, Repr

/-- The mutable context as seen at runtime.  The TS interface
`IMutableContext` (src/index.ts lines 16-23) has no `appName` or
`environment` field, but `updateContext` checks for them at runtime behind
a `ts-expect-error` marker (lines 223-229), so a runtime value may carry
them; `none` models a field that is absent from the object. -/
structure IMutableContext where
  appName : Option String := none
  environment : Option String := none
  userId : Option String := none
  sessionId : Option String := none
  remoteAddress : Option String := none
  properties : Option (List (String × String)) := none
deriving DecidableEq, Repr

/-- Constructor context merge, src/index.ts line 144:
`this.context = \x7b appName, environment, ...context \x7d`.  Keys present on
the caller-supplied context object override the two positional fields. -/
def mkContext (appName : String) (environment : String)
    (c : IMutableContext) : IContext :=
  { appName := (c.appName).getD appName
  , environment := some ((c.environment).getD environment)
  , userId := c.userId
  , sessionId := c.sessionId
  , remoteAddress := c.remoteAddress
  , properties := c.properties }

/-- JS truthiness of an optional string: absent, `undefined` and the empty
string are falsy. -/
def truthyStr : Option String → Bool
  | some s => !s.isEmpty
  | none => false

/-- The diagnostic branch of `updateContext`, src/index.ts lines 225-229:
`if (context.appName || context.environment) console.warn(...)`. -/
def updateContextWarns (c : IMutableContext) : Bool :=
  truthyStr c.appName || truthyStr c.environment

/-- Context replacement performed by `updateContext`, src/index.ts lines
230-234: a `staticContext` holding the current `environment` and `appName`
is built, then `this.context = \x7b ...staticContext, ...context \x7d` — any
key present on the incoming object, including a runtime `appName` or
`environment`, overrides the static snapshot, and every mutable field not
present on the incoming object is dropped. -/
def updateContextMerge (cur : IContext) (c : IMutableContext) : IContext :=
  { appName := (c.appName).getD cur.appName
  , environment :=
      match c.environment with
      | some e => some e
      | none => cur.environment
  , userId := c.userId
  , sessionId := c.sessionId
  , remoteAddress := c.remoteAddress
  , properties := c.properties }

/-- `DEFINED_FIELDS` from src/index.ts line 9. -/
def DEFINED_FIELDS : List String := ["userId", "sessionId", "remoteAddress"]

/-- JS computed-key object update: replaces the value in place when the key
exists, otherwise appends the new key (JS object key-order semantics). -/
def objSet (props : List (String × String)) (k v : String) :
    List (String × String) :=
  if props.any (fun p => p.1 == k) then
    props.map (fun p => if p.1 == k then (k, v) else p)
  else props ++ [(k, v)]

/-- `setContextField`, src/index.ts lines 244-254: a field in
`DEFINED_FIELDS` is set directly on the context, anything else goes into
the `properties` map. -/
def setContextField (cur : IContext) (field value : String) : IContext :=
  if DEFINED_FIELDS.contains field then
    if field == "userId" then { cur with userId := some value }
    else if field == "sessionId" then { cur with sessionId := some value }
    else { cur with remoteAddress := some value }
  else
    { cur with
        properties := some (objSet ((cur.properties).getD []) field value) }

/-- A value held by the Storage Port; the two keys used are the fixed
toggle-cache key and the session-id key. -/
inductive StoreVal where
  | toggles (ts : List IToggle)
  | session (sid : String)
deriving DecidableEq, Repr

/-- Modelled from the spec: the Storage Port of section 6 (async key-value
`get`/`save`; the `storage-provider-*` implementations are not part of the
analysed source).  Modelled as a key-value mapping. -/
def StorageMap : Type := String → Option StoreVal

/-- Modelled from the spec: Storage Port `get`. -/
def storageGet (st : StorageMap) (k : String) : Option StoreVal := st k

/-- Modelled from the spec: Storage Port `save`. -/
def storageSave (st : StorageMap) (k : String) (v : StoreVal) : StorageMap :=
  fun k2 => if k2 == k then some v else st k2

/-- The empty storage. -/
def emptyStorage : StorageMap := fun _ => none

/-- Toggle list stored under the fixed cache key, if any. -/
def getRepo (st : StorageMap) : Option (List IToggle) :=
  match storageGet st storeKey with
  | some (StoreVal.toggles ts) => some ts
  | _ => none

/-- Session id stored under the session key, if any. -/
def getSession (st : StorageMap) : Option String :=
  match storageGet st "sessionId" with
  | some (StoreVal.session sid) => some sid
  | _ => none

/-- Modelled from the spec: impression payloads carry the context, the
boolean result, the toggle name, the evaluation kind and an optional
variant name (the `events-handler` module is not part of the analysed
source). -/
structure ImpressionEvent where
  context : IContext
  enabled : Bool
  toggleName : String
  eventType : String
  variantName : Option String := none
deriving DecidableEq, Repr

/-- Payload of an `error` event: `\x7btype: HttpError, code\x7d` for a non-ok
response, otherwise the raw failure forwarded opaquely. -/
inductive ErrorPayload where
  | httpError (code : Nat)
  | transport (raw : String)
deriving DecidableEq, Repr

/-- Events published on the Event Bus (`EVENTS`, src/index.ts lines
59-65); impression events carry their payload. -/
inductive Event where
  | initialized
  | error (p : ErrorPayload)
  | ready
  | update
  | impression (e : ImpressionEvent)
deriving DecidableEq, Repr

/-- Counts the `ready` events in an emission list. -/
def isReadyEvent : Event → Bool
  | Event.ready => true
  | _ => false

/-- Counts the `update` events in an emission list. -/
def isUpdateEvent : Event → Bool
  | Event.update => true
  | _ => false

def countReady (evs : List Event) : Nat := evs.countP isReadyEvent

def countUpdate (evs : List Event) : Nat := evs.countP isUpdateEvent

/-- The mutable state of an `UnleashClient` instance (the private fields of
the class that the synchronization and evaluation engine reads and
writes).  `hasFetch` models whether a Transport Port is available
(`this.fetch`); `timerActive` models `this.timerRef`; the Storage Port
content is carried in the state so that `save` effects are visible. -/
structure ClientState where
  toggles : List IToggle
  context : IContext
  etag : String
  readyEventEmitted : Bool
  bootstrap : Option (List IToggle)
  bootstrapOverride : Bool
  timerActive : Bool
  hasFetch : Bool
  storage : StorageMap

/-- Constructor inputs relevant to the engine (src/index.ts lines
108-124); defaults follow the source. -/
structure Config where
  appName : String
  environment : String := "default"
  context : IMutableContext := {}
  bootstrap : Option (List IToggle) := none
  bootstrapOverride : Bool := true
  hasFetch : Bool := true
  storage0 : StorageMap := emptyStorage

/-- The constructor body (src/index.ts lines 125-176): a bootstrap list is
kept only when non-empty (`bootstrap && bootstrap.length > 0`), the etag
starts empty, the ready latch starts unset. -/
def mkClient (cfg : Config) : ClientState :=
  let bs : Option (List IToggle) :=
    match cfg.bootstrap with
    | some b => if b.length > 0 then some b else none
    | none => none
  { toggles := bs.getD []
  , context := mkContext cfg.appName cfg.environment cfg.context
  , etag := ""
  , readyEventEmitted := false
  , bootstrap := bs
  , bootstrapOverride := cfg.bootstrapOverride
  , timerActive := false
  , hasFetch := cfg.hasFetch
  , storage := cfg.storage0 }

/-- `getAllToggles`, src/index.ts lines 178-180 (the JS spread returns a
defensive copy; on immutable lists the copy is the list itself). -/
def getAllToggles (s : ClientState) : List IToggle := s.toggles

/-- `this.toggles.find((t) => t.name === toggleName)`. -/
def findToggle (toggles : List IToggle) (toggleName : String) :
    Option IToggle :=
  toggles.find? (fun t => t.name == toggleName)

/-- Observable outcome of one `isEnabled` call: the returned boolean, the
metrics count recorded via `metrics.count`, and the published events. -/
structure EvalBool where
  result : Bool
  metricsCount : String × Bool
  events : List Event
deriving DecidableEq, Repr

/-- `isEnabled`, src/index.ts lines 182-198. -/
def isEnabled (s : ClientState) (toggleName : String) : EvalBool :=
  let toggle := findToggle s.toggles toggleName
  let enabled :=
    match toggle with
    | some t => t.enabled
    | none => false
  let evs : List Event :=
    match toggle with
    | some t =>
      if t.impressionData then
        [Event.impression
          { context := s.context, enabled := enabled,
            toggleName := toggleName, eventType := "isEnabled" }]
      else []
    | none => []
  { result := enabled, metricsCount := (toggleName, enabled), events := evs }

/-- Observable outcome of one `getVariant` call. -/
structure EvalVariant where
  result : IVariant
  metricsCount : String × Bool
  events : List Event
deriving DecidableEq, Repr

/-- `getVariant`, src/index.ts lines 200-220. -/
def getVariant (s : ClientState) (toggleName : String) : EvalVariant :=
  match findToggle s.toggles toggleName with
  | some t =>
    { result := t.variant
    , metricsCount := (toggleName, true)
    , events :=
        if t.impressionData then
          [Event.impression
            { context := s.context, enabled := t.enabled,
              toggleName := toggleName, eventType := "getVariant",
              variantName := some t.variant.name }]
        else [] }
  | none =>
    { result := defaultVariant
    , metricsCount := (toggleName, false)
    , events := [] }

/-- The transport response shape used by `fetchToggles`: success flag,
status code, optional revision header, and the JSON body read — which
either fails (`response.json()` rejects on a malformed body) or yields the
`toggles` list of the parsed document. -/
structure Response where
  ok : Bool
  status : Nat
  etagHeader : Option String
  body : Except String (List IToggle)

/-- Outcome of one transport request: the promise either rejects with a raw
failure or resolves to a response. -/
inductive FetchOutcome where
  | reject (raw : String)
  | resolve (r : Response)

/-- `storeToggles`, src/index.ts lines 325-329: assigns the snapshot, emits
`update`, persists under the fixed cache key. -/
def storeToggles (s : ClientState) (toggles : List IToggle) :
    ClientState × List Event :=
  ({ s with toggles := toggles
          , storage := storageSave s.storage storeKey (StoreVal.toggles toggles) }
  , [Event.update])

/-- `fetchToggles`, src/index.ts lines 331-385, as a total function of the
pre-state and the transport outcome — totality is the embedding of "never
throws past its own boundary"; all emissions are returned explicitly.
Note the source order: the etag is assigned from the `ETag` header (empty
when absent) before the body is read, the `update` emission happens inside
`storeToggles`, and a one-time `ready` follows when no bootstrap was
supplied and the latch is unset. -/
def fetchToggles (s : ClientState) (out : FetchOutcome) :
    ClientState × List Event :=
  if s.hasFetch then
    match out with
    | FetchOutcome.reject raw => (s, [Event.error (ErrorPayload.transport raw)])
    | FetchOutcome.resolve r =>
      if r.ok = true ∧ r.status ≠ 304 then
        let s1 := { s with etag := (r.etagHeader).getD "" }
        match r.body with
        | Except.error raw => (s1, [Event.error (ErrorPayload.transport raw)])
        | Except.ok data =>
          let pr := storeToggles s1 data
          if pr.1.bootstrap = none ∧ pr.1.readyEventEmitted = false then
            ({ pr.1 with readyEventEmitted := true }, pr.2 ++ [Event.ready])
          else pr
      else if r.ok = false ∧ r.status ≠ 304 then
        (s, [Event.error (ErrorPayload.httpError r.status)])
      else (s, [])
  else (s, [])

/-- `resolveSessionId`, src/index.ts lines 299-310: an existing context
session id wins, else the stored one, else a fresh one is generated and
persisted.  The fresh id is a parameter (the source draws it from
`Math.random`). -/
def resolveSessionId (ctx : IContext) (st : StorageMap) (fresh : String) :
    String × StorageMap :=
  match ctx.sessionId with
  | some sid => (sid, st)
  | none =>
    match getSession st with
    | some sid => (sid, st)
    | none => (fresh, storageSave st "sessionId" (StoreVal.session fresh))

/-- `init`, src/index.ts lines 256-271: resolves the session id into the
context, loads the cached snapshot (empty when absent), reconciles the
bootstrap (adopting and persisting it, and emitting `ready`, when one was
supplied and either the override flag is set or the loaded snapshot is
empty), and emits `initialized` last. -/
def init (s : ClientState) (fresh : String) : ClientState × List Event :=
  let pr := resolveSessionId s.context s.storage fresh
  let ctx1 := { s.context with sessionId := some pr.1 }
  let toggles1 := (getRepo pr.2).getD []
  let s1 := { s with context := ctx1, storage := pr.2, toggles := toggles1 }
  match s1.bootstrap with
  | some b =>
    if s1.bootstrapOverride = true ∨ toggles1.length = 0 then
      ({ s1 with
           storage := storageSave s1.storage storeKey (StoreVal.toggles b)
         , toggles := b }
      , [Event.ready, Event.initialized])
    else (s1, [Event.initialized])
  | none => (s1, [Event.initialized])

/-- Runs a sequence of synchronizations, threading the state and
concatenating the emissions. -/
def runSyncs (s : ClientState) (outs : List FetchOutcome) :
    ClientState × List Event :=
  match outs with
  | [] => (s, [])
  | o :: rest =>
    let pr := fetchToggles s o
    let pr2 := runSyncs pr.1 rest
    (pr2.1, pr.2 ++ pr2.2)

/-- A client lifetime: construction, initialization, then a sequence of
synchronizations; returns the final state and the full emission trace. -/
def lifetime (cfg : Config) (fresh : String) (outs : List FetchOutcome) :
    ClientState × List Event :=
  let pr1 := init (mkClient cfg) fresh
  let pr2 := runSyncs pr1.1 outs
  (pr2.1, pr1.2 ++ pr2.2)

/-- Whether a transport outcome is an ok, non-304 response whose body read
succeeds — the one path that carries fresh toggle data. -/
def isSuccessBody : FetchOutcome → Bool
  | FetchOutcome.resolve r =>
    if r.ok = true ∧ r.status ≠ 304 then
      match r.body with
      | Except.ok _ => true
      | Except.error _ => false
    else false
  | FetchOutcome.reject _ => false

/-- Helper for query construction: a defined optional context field is
appended under its field name, an absent one is skipped. -/
def optParam (k : String) : Option String → List (String × String)
  | some v => [(k, v)]
  | none => []

/-- Flattening of the `properties` map into query parameters named
`properties[<key>]` (src/index.ts lines 342-350). -/
def propsParams : Option (List (String × String)) → List (String × String)
  | some props => props.map (fun p => ("properties[" ++ p.1 ++ "]", p.2))
  | none => []

/-- The query parameters appended to the request URL by `fetchToggles`
(src/index.ts lines 334-357): every defined context field under its own
name, with the `properties` map flattened entry-wise. -/
def contextQueryParams (ctx : IContext) : List (String × String) :=
  [("appName", ctx.appName)]
  ++ optParam "environment" ctx.environment
  ++ optParam "userId" ctx.userId
  ++ optParam "sessionId" ctx.sessionId
  ++ optParam "remoteAddress" ctx.remoteAddress
  ++ propsParams ctx.properties

/-- The expected error payload of a failing transport outcome, `none` when
the outcome is not a failure path (304 or a success with a readable
body). -/
def failurePayload : FetchOutcome → Option ErrorPayload
  | FetchOutcome.reject raw => some (ErrorPayload.transport raw)
  | FetchOutcome.resolve r =>
    if r.ok = true ∧ r.status ≠ 304 then
      match r.body with
      | Except.error raw => some (ErrorPayload.transport raw)
      | Except.ok _ => none
    else if r.ok = false ∧ r.status ≠ 304 then
      some (ErrorPayload.httpError r.status)
    else none

/-! Concrete sample values used by witnesses and counterexamples. -/

def toggleA : IToggle :=
  { name := "toggleA", enabled := true
  , variant := { name := "v1", enabled := true }, impressionData := false }

def toggleB : IToggle :=
  { name := "toggleB", enabled := false
  , variant := { name := "v2", enabled := false }, impressionData := false }

def sampleCfg : Config := { appName := "app" }

def sampleClient : ClientState := mkClient sampleCfg

def sampleStateWithToggle : ClientState :=
  { mkClient sampleCfg with toggles := [toggleA] }

def okResp : Response :=
  { ok := true, status := 200, etagHeader := some "etag-1"
  , body := Except.ok [toggleA] }

def resp304 : Response :=
  { ok := false, status := 304, etagHeader := none
  , body := Except.error "no body" }

def resp500 : Response :=
  { ok := false, status := 500, etagHeader := none
  , body := Except.error "no body" }

/-- C1: on an ok, non-304 response whose body reads toggles `T`, the
snapshot is replaced wholesale by `T` — `getAllToggles` afterwards returns
exactly `T` in the same order — the snapshot is persisted to storage under
the fixed cache key, and exactly one `update` event is emitted for that
synchronization. -/
theorem fetch_success_replaces_snapshot (s : ClientState) (r : Response)
    (T : List IToggle) (hf : s.hasFetch = true) (hok : r.ok = true)
    (h304 : r.status ≠ 304) (hbody : r.body = Except.ok T) :
    getAllToggles (fetchToggles s (FetchOutcome.resolve r)).1 = T
    ∧ getRepo (fetchToggles s (FetchOutcome.resolve r)).1.storage = some T
    ∧ countUpdate (fetchToggles s (FetchOutcome.resolve r)).2 = 1 := by
  simp only [fetchToggles, hf, if_true, hbody]
  rw [if_pos ⟨hok, h304⟩]
  simp only [storeToggles]
  split
  · refine ⟨rfl, ?_, by simp [countUpdate, isUpdateEvent]⟩
    simp [getRepo, storageGet, storageSave, storeKey]
  · refine ⟨rfl, ?_, by simp [countUpdate, isUpdateEvent]⟩
    simp [getRepo, storageGet, storageSave, storeKey]

theorem fetch_success_replaces_snapshot_witness :
    (sampleClient.hasFetch = true ∧ okResp.ok = true ∧ okResp.status ≠ 304
      ∧ okResp.body = Except.ok [toggleA])
    ∧ (getAllToggles (fetchToggles sampleClient (FetchOutcome.resolve okResp)).1
        = [toggleA]
      ∧ getRepo (fetchToggles sampleClient (FetchOutcome.resolve okResp)).1.storage
        = some [toggleA]
      ∧ countUpdate (fetchToggles sampleClient (FetchOutcome.resolve okResp)).2
        = 1) :=
  ⟨⟨rfl, rfl, by decide, rfl⟩,
   fetch_success_replaces_snapshot sampleClient okResp [toggleA] rfl rfl
     (by decide) rfl⟩

/-- C2: for a toggle name absent from the snapshot, `isEnabled` returns
`false` and `getVariant` returns the sentinel disabled variant; both record
a metrics count of `(name, false)` and neither publishes an impression
event. -/
theorem absent_toggle_eval (s : ClientState) (toggleName : String)
    (habs : ∀ t ∈ s.toggles, t.name ≠ toggleName) :
    isEnabled s toggleName =
      { result := false, metricsCount := (toggleName, false), events := [] }
    ∧ getVariant s toggleName =
      { result := defaultVariant, metricsCount := (toggleName, false)
      , events := [] } := by
  have hfind : findToggle s.toggles toggleName = none := by
    apply List.find?_eq_none.mpr
    intro t ht
    simp [habs t ht]
  exact ⟨by simp [isEnabled, hfind], by simp [getVariant, hfind]⟩

theorem absent_toggle_eval_witness :
    (∀ t ∈ sampleStateWithToggle.toggles, t.name ≠ "missing")
    ∧ (isEnabled sampleStateWithToggle "missing" =
        { result := false, metricsCount := ("missing", false), events := [] }
      ∧ getVariant sampleStateWithToggle "missing" =
        { result := defaultVariant, metricsCount := ("missing", false)
        , events := [] }) :=
  ⟨by decide, absent_toggle_eval sampleStateWithToggle "missing" (by decide)⟩

/-- C3 (code bug evaluated at the failing input): `updateContext` produces
the diagnostic for a runtime `appName` in the mutable context — the
warning text says static fields cannot be updated this way — and then the
spread `...context` nonetheless applies the overwrite: the construction
state has `appName = "app"`, and after the merge it is `"evil"`. -/
theorem updateContext_applies_static_overwrite :
    updateContextWarns { appName := some "evil" } = true
    ∧ (mkContext "app" "default" {}).appName = "app"
    ∧ (updateContextMerge (mkContext "app" "default" {})
        { appName := some "evil" }).appName = "evil" :=
  ⟨by decide, rfl, rfl⟩

/-- C4: `fetchToggles` is a total function (the embedding of "never throws
past its own boundary"); on every failure path — rejected request,
malformed body, or a non-ok non-304 status — it emits exactly one `error`
event with the matching payload and leaves the toggle snapshot
unchanged. -/
theorem fetch_failure_no_throw (s : ClientState) (out : FetchOutcome)
    (p : ErrorPayload) (hf : s.hasFetch = true)
    (hfail : failurePayload out = some p) :
    (fetchToggles s out).1.toggles = s.toggles
    ∧ (fetchToggles s out).2 = [Event.error p] := by
  cases out with
  | reject raw =>
    simp only [failurePayload, Option.some.injEq] at hfail
    subst hfail
    simp [fetchToggles, hf]
  | resolve r =>
    by_cases hc1 : r.ok = true ∧ r.status ≠ 304
    · cases hb : r.body with
      | ok data => simp [failurePayload, hc1, hb] at hfail
      | error raw =>
        simp only [failurePayload, if_pos hc1, hb, Option.some.injEq] at hfail
        subst hfail
        simp [fetchToggles, hf, hc1, hb]
    · by_cases hc2 : r.ok = false ∧ r.status ≠ 304
      · simp only [failurePayload, if_neg hc1, if_pos hc2,
          Option.some.injEq] at hfail
        subst hfail
        simp [fetchToggles, hf, hc1, hc2]
      · simp [failurePayload, hc1, hc2] at hfail

theorem fetch_failure_no_throw_witness :
    (sampleClient.hasFetch = true
      ∧ failurePayload (FetchOutcome.resolve resp500)
        = some (ErrorPayload.httpError 500))
    ∧ ((fetchToggles sampleClient (FetchOutcome.resolve resp500)).1.toggles
        = sampleClient.toggles
      ∧ (fetchToggles sampleClient (FetchOutcome.resolve resp500)).2
        = [Event.error (ErrorPayload.httpError 500)]) :=
  ⟨⟨rfl, by decide⟩,
   fetch_failure_no_throw sampleClient (FetchOutcome.resolve resp500)
     (ErrorPayload.httpError 500) rfl (by decide)⟩

/-- C5: a 304 ("not modified") response leaves the whole client state —
snapshot, revision marker, and persisted cache — exactly as it was, and
emits no event at all. -/
theorem fetch_304_frame (s : ClientState) (r : Response)
    (h : r.status = 304) :
    fetchToggles s (FetchOutcome.resolve r) = (s, []) := by
  unfold fetchToggles
  by_cases hf : s.hasFetch
  · simp [hf, h]
  · simp [hf]

theorem fetch_304_frame_witness :
    resp304.status = 304
    ∧ fetchToggles sampleClient (FetchOutcome.resolve resp304)
      = (sampleClient, []) :=
  ⟨rfl, fetch_304_frame sampleClient resp304 rfl⟩

/-- C10: for a partial mutable context without runtime static fields, the
context after `updateContext` is exactly the static fields combined with
the partial: every mutable field absent from the partial — including a
session id resolved during initialization — is dropped, not preserved. -/
theorem updateContext_drops_absent_mutable_fields (cur : IContext)
    (p : IMutableContext) (ha : p.appName = none)
    (he : p.environment = none) :
    updateContextMerge cur p =
      { appName := cur.appName, environment := cur.environment
      , userId := p.userId, sessionId := p.sessionId
      , remoteAddress := p.remoteAddress, properties := p.properties } := by
  simp [updateContextMerge, ha, he]

def ctxAfterInit : IContext :=
  { appName := "app", environment := some "default"
  , sessionId := some "s0", userId := some "u0" }

theorem updateContext_drops_absent_mutable_fields_witness :
    (({ userId := some "x" } : IMutableContext).appName = none
      ∧ ({ userId := some "x" } : IMutableContext).environment = none)
    ∧ updateContextMerge ctxAfterInit { userId := some "x" } =
        { appName := "app", environment := some "default"
        , userId := some "x", sessionId := none
        , remoteAddress := none, properties := none } :=
  ⟨⟨rfl, rfl⟩,
   updateContext_drops_absent_mutable_fields ctxAfterInit
     { userId := some "x" } rfl rfl⟩

/-! Helper lemmas shared by several developments. -/

theorem getRepo_save (st : StorageMap) (ts : List IToggle) :
    getRepo (storageSave st storeKey (StoreVal.toggles ts)) = some ts := rfl

theorem getRepo_resolveSessionId (ctx : IContext) (st : StorageMap)
    (fresh : String) :
    getRepo (resolveSessionId ctx st fresh).2 = getRepo st := by
  unfold resolveSessionId
  cases ctx.sessionId with
  | some sid => rfl
  | none =>
    cases h : getSession st with
    | some sid => rfl
    | none => rfl

theorem countReady_nil : countReady [] = 0 := rfl

theorem countReady_single_not_ready (e : Event) (h : isReadyEvent e = false) :
    countReady [e] = 0 := by
  simp [countReady, List.countP, List.countP.go, h]

theorem countReady_append (l1 l2 : List Event) :
    countReady (l1 ++ l2) = countReady l1 + countReady l2 :=
  List.countP_append _ _ _

theorem fetchToggles_preserves (s : ClientState) (out : FetchOutcome) :
    (fetchToggles s out).1.bootstrap = s.bootstrap
    ∧ (fetchToggles s out).1.hasFetch = s.hasFetch := by
  by_cases hf : s.hasFetch = true
  · cases out with
    | reject raw => simp [fetchToggles, hf]
    | resolve r =>
      by_cases hc1 : r.ok = true ∧ r.status ≠ 304
      · cases hbd : r.body with
        | error raw => simp [fetchToggles, hf, hc1, hbd]
        | ok data =>
          simp only [fetchToggles, hf, if_true, if_pos hc1, hbd, storeToggles]
          split <;> simp
      · by_cases hc2 : r.ok = false ∧ r.status ≠ 304 <;>
          simp [fetchToggles, hf, hc1, hc2]
  · have hf' : s.hasFetch = false := by simpa using hf
    simp [fetchToggles, hf']

theorem fetchToggles_ready_success (s : ClientState) (out : FetchOutcome)
    (hf : s.hasFetch = true) (hb : s.bootstrap = none)
    (hr : s.readyEventEmitted = false) (hs : isSuccessBody out = true) :
    countReady (fetchToggles s out).2 = 1
    ∧ (fetchToggles s out).1.readyEventEmitted = true := by
  cases out with
  | reject raw => simp [isSuccessBody] at hs
  | resolve r =>
    by_cases hc1 : r.ok = true ∧ r.status ≠ 304
    · cases hbd : r.body with
      | error raw => simp [isSuccessBody, hc1, hbd] at hs
      | ok data =>
        simp only [fetchToggles, hf, if_true, if_pos hc1, hbd, storeToggles]
        rw [if_pos ⟨hb, hr⟩]
        exact ⟨by simp [countReady, List.countP, List.countP.go, isReadyEvent],
          rfl⟩
    · simp [isSuccessBody, hc1] at hs

theorem fetchToggles_no_ready (s : ClientState) (out : FetchOutcome)
    (h : ¬ (s.hasFetch = true ∧ s.bootstrap = none
            ∧ s.readyEventEmitted = false ∧ isSuccessBody out = true)) :
    countReady (fetchToggles s out).2 = 0
    ∧ (fetchToggles s out).1.readyEventEmitted = s.readyEventEmitted := by
  by_cases hf : s.hasFetch = true
  · cases out with
    | reject raw =>
      simp [fetchToggles, hf, countReady, List.countP, List.countP.go,
        isReadyEvent]
    | resolve r =>
      by_cases hc1 : r.ok = true ∧ r.status ≠ 304
      · cases hbd : r.body with
        | error raw =>
          simp [fetchToggles, hf, hc1, hbd, countReady, List.countP,
            List.countP.go, isReadyEvent]
        | ok data =>
          by_cases hrdy : s.bootstrap = none ∧ s.readyEventEmitted = false
          · exact absurd ⟨hf, hrdy.1, hrdy.2,
              by simp [isSuccessBody, hc1, hbd]⟩ h
          · simp only [fetchToggles, hf, if_true, if_pos hc1, hbd,
              storeToggles]
            rw [if_neg hrdy]
            exact ⟨by simp [countReady, List.countP, List.countP.go,
              isReadyEvent], rfl⟩
      · by_cases hc2 : r.ok = false ∧ r.status ≠ 304 <;>
          simp [fetchToggles, hf, hc1, hc2, countReady, List.countP,
            List.countP.go, isReadyEvent]
  · have hf' : s.hasFetch = false := by simpa using hf
    simp [fetchToggles, hf', countReady, List.countP, List.countP.go]

theorem runSyncs_no_ready_bootstrap (s : ClientState)
    (outs : List FetchOutcome) (b : List IToggle)
    (hb : s.bootstrap = some b) :
    countReady (runSyncs s outs).2 = 0 := by
  induction outs generalizing s with
  | nil => simp [runSyncs, countReady, List.countP, List.countP.go]
  | cons o rest ih =>
    have hpres := fetchToggles_preserves s o
    have h0 := fetchToggles_no_ready s o
      (fun hc => by rw [hb] at hc; exact Option.noConfusion hc.2.1)
    simp only [runSyncs, countReady_append]
    rw [show countReady (fetchToggles s o).2 = 0 from h0.1,
      ih (fetchToggles s o).1 (by rw [hpres.1]; exact hb)]

theorem runSyncs_ready_count (s : ClientState) (outs : List FetchOutcome)
    (hb : s.bootstrap = none) (hf : s.hasFetch = true) :
    countReady (runSyncs s outs).2 =
      (if s.readyEventEmitted = true then 0
       else if outs.any (fun o => isSuccessBody o) = true then 1 else 0) := by
  induction outs generalizing s with
  | nil =>
    by_cases hre : s.readyEventEmitted = true <;>
      simp [runSyncs, countReady, List.countP, List.countP.go, hre]
  | cons o rest ih =>
    have hpres := fetchToggles_preserves s o
    by_cases hre : s.readyEventEmitted = true
    · have h0 := fetchToggles_no_ready s o
        (fun hc => by rw [hre] at hc; exact Bool.noConfusion hc.2.2.1)
      have hrest := ih (fetchToggles s o).1 (by rw [hpres.1]; exact hb)
        (by rw [hpres.2]; exact hf)
      rw [h0.2, hre] at hrest
      simp only [runSyncs, countReady_append, h0.1, hrest, if_pos rfl, hre,
        if_true]
    · have hre' : s.readyEventEmitted = false := by simpa using hre
      by_cases hsb : isSuccessBody o = true
      · have h1 := fetchToggles_ready_success s o hf hb hre' hsb
        have hrest := ih (fetchToggles s o).1 (by rw [hpres.1]; exact hb)
          (by rw [hpres.2]; exact hf)
        rw [h1.2] at hrest
        simp only [if_pos rfl] at hrest
        simp [runSyncs, countReady_append, h1.1, hrest, hre', List.any_cons,
          hsb]
      · have h0 := fetchToggles_no_ready s o (fun hc => hsb hc.2.2.2)
        have hrest := ih (fetchToggles s o).1 (by rw [hpres.1]; exact hb)
          (by rw [hpres.2]; exact hf)
        rw [h0.2, hre'] at hrest
        have hsb' : isSuccessBody o = false := by simpa using hsb
        simp [runSyncs, countReady_append, h0.1, hrest, hre', List.any_cons,
          hsb']

theorem init_preserves (s : ClientState) (fresh : String) :
    (init s fresh).1.bootstrap = s.bootstrap
    ∧ (init s fresh).1.readyEventEmitted = s.readyEventEmitted
    ∧ (init s fresh).1.hasFetch = s.hasFetch := by
  simp only [init]
  cases hbs : s.bootstrap with
  | some b =>
    simp only [hbs]
    split <;> simp [hbs]
  | none => simp [hbs]

theorem init_no_bootstrap (s : ClientState) (fresh : String)
    (hb : s.bootstrap = none) :
    (init s fresh).1.toggles = (getRepo s.storage).getD []
    ∧ (init s fresh).2 = [Event.initialized] := by
  simp [init, hb, getRepo_resolveSessionId]

theorem init_adopts_bootstrap (s : ClientState) (fresh : String)
    (b : List IToggle) (hb : s.bootstrap = some b)
    (hc : s.bootstrapOverride = true
      ∨ ((getRepo s.storage).getD []).length = 0) :
    (init s fresh).1.toggles = b
    ∧ getRepo (init s fresh).1.storage = some b
    ∧ (init s fresh).2 = [Event.ready, Event.initialized] := by
  simp only [init, hb, getRepo_resolveSessionId]
  rw [if_pos (by simpa [getRepo_resolveSessionId] using hc)]
  exact ⟨rfl, getRepo_save _ _, rfl⟩

theorem init_keeps_cache (s : ClientState) (fresh : String)
    (b : List IToggle) (hb : s.bootstrap = some b)
    (ho : s.bootstrapOverride = false)
    (hne : ((getRepo s.storage).getD []).length ≠ 0) :
    (init s fresh).1.toggles = (getRepo s.storage).getD []
    ∧ (init s fresh).2 = [Event.initialized] := by
  simp only [init, hb, getRepo_resolveSessionId]
  rw [if_neg (by simp [getRepo_resolveSessionId, ho, hne])]
  exact ⟨rfl, rfl⟩

theorem init_ready_count_some (s : ClientState) (fresh : String)
    (b : List IToggle) (hb : s.bootstrap = some b) :
    countReady (init s fresh).2 =
      (if s.bootstrapOverride = true
          ∨ ((getRepo s.storage).getD []).length = 0 then 1 else 0) := by
  by_cases hc : s.bootstrapOverride = true
      ∨ ((getRepo s.storage).getD []).length = 0
  · rw [(init_adopts_bootstrap s fresh b hb hc).2.2, if_pos hc]
    rfl
  · have ho : s.bootstrapOverride = false := by
      rcases Bool.eq_false_or_eq_true s.bootstrapOverride with h | h
      · exact absurd (Or.inl h) hc
      · exact h
    have hne : ((getRepo s.storage).getD []).length ≠ 0 :=
      fun h => hc (Or.inr h)
    rw [(init_keeps_cache s fresh b hb ho hne).2, if_neg hc]
    rfl

/-! Claims C6, C7, C8, C9. -/

def cacheStorage : StorageMap :=
  storageSave emptyStorage storeKey (StoreVal.toggles [toggleB])

def emptyBootstrapCfg : Config :=
  { appName := "app", bootstrap := some [], bootstrapOverride := true
  , storage0 := cacheStorage }

/-- C6 counterexample: the claim quantifies over every bootstrap set `B`,
but the constructor discards an empty bootstrap list
(`bootstrap && bootstrap.length > 0`), so with `B = []`, override = true
and a non-empty cache, the snapshot after initialization is the cache, not
`B`. -/
theorem bootstrap_empty_list_counterexample :
    emptyBootstrapCfg.bootstrap = some []
    ∧ emptyBootstrapCfg.bootstrapOverride = true
    ∧ (init (mkClient emptyBootstrapCfg) "sid").1.toggles = [toggleB]
    ∧ [toggleB] ≠ ([] : List IToggle) := by
  refine ⟨rfl, rfl, rfl, by decide⟩

/-- C6 (amended to non-empty bootstrap sets): for every non-empty
bootstrap `B`, with override = true the snapshot after initialization is
`B` regardless of the cache, `B` is persisted as the new cache, and
`ready` is emitted during initialization; with override = false and a
non-empty loaded cache `C`, the snapshot is `C` and no `ready` is
emitted. -/
theorem bootstrap_init_amended (cfg : Config) (fresh : String)
    (b : List IToggle) (hb : cfg.bootstrap = some b) (hne : b ≠ []) :
    (cfg.bootstrapOverride = true →
      (init (mkClient cfg) fresh).1.toggles = b
      ∧ getRepo (init (mkClient cfg) fresh).1.storage = some b
      ∧ Event.ready ∈ (init (mkClient cfg) fresh).2)
    ∧ (∀ C, cfg.bootstrapOverride = false → getRepo cfg.storage0 = some C →
        C ≠ [] →
        (init (mkClient cfg) fresh).1.toggles = C
        ∧ Event.ready ∉ (init (mkClient cfg) fresh).2) := by
  have hlen : 0 < b.length := List.length_pos.mpr hne
  have hbs : (mkClient cfg).bootstrap = some b := by
    simp [mkClient, hb, hlen]
  constructor
  · intro hoT
    have hov : (mkClient cfg).bootstrapOverride = true := hoT
    obtain ⟨h1, h2, h3⟩ := init_adopts_bootstrap (mkClient cfg) fresh b hbs
      (Or.inl hov)
    exact ⟨h1, h2, by rw [h3]; simp⟩
  · intro C hoF hC hCne
    have hrepo : getRepo (mkClient cfg).storage = some C := hC
    have hglen : ((getRepo (mkClient cfg).storage).getD []).length ≠ 0 := by
      rw [hrepo]
      simpa using hCne
    obtain ⟨h1, h2⟩ := init_keeps_cache (mkClient cfg) fresh b hbs hoF hglen
    refine ⟨?_, ?_⟩
    · rw [h1, hrepo]
      rfl
    · rw [h2]
      simp

def bootCfg : Config := { appName := "app", bootstrap := some [toggleA] }

theorem bootstrap_init_amended_witness :
    (bootCfg.bootstrap = some [toggleA] ∧ [toggleA] ≠ ([] : List IToggle))
    ∧ ((bootCfg.bootstrapOverride = true →
        (init (mkClient bootCfg) "sid").1.toggles = [toggleA]
        ∧ getRepo (init (mkClient bootCfg) "sid").1.storage = some [toggleA]
        ∧ Event.ready ∈ (init (mkClient bootCfg) "sid").2)
      ∧ (∀ C, bootCfg.bootstrapOverride = false →
          getRepo bootCfg.storage0 = some C → C ≠ [] →
          (init (mkClient bootCfg) "sid").1.toggles = C
          ∧ Event.ready ∉ (init (mkClient bootCfg) "sid").2)) :=
  ⟨⟨rfl, by decide⟩,
   bootstrap_init_amended bootCfg "sid" [toggleA] rfl (by decide)⟩

def etagResp1 : Response :=
  { ok := true, status := 200, etagHeader := some "abc"
  , body := Except.ok [toggleA] }

def etagNoHeaderResp : Response :=
  { ok := true, status := 200, etagHeader := none
  , body := Except.ok [toggleA] }

/-- C7 counterexample: a first successful synchronization sets the
revision marker to `"abc"`; a second successful response carrying fresh
toggle data but no `ETag` header rolls it back to the empty string —
refuting "once set to a non-empty value it is never rolled back". -/
theorem etag_rollback_counterexample :
    (fetchToggles sampleClient (FetchOutcome.resolve etagResp1)).1.etag
      = "abc"
    ∧ (fetchToggles
        (fetchToggles sampleClient (FetchOutcome.resolve etagResp1)).1
        (FetchOutcome.resolve etagNoHeaderResp)).1.etag = "" := by
  exact ⟨rfl, rfl⟩

/-- C7 (amended): the revision marker is empty at construction; on every
ok, non-304 response it is assigned the response's `ETag` header value,
defaulting to empty when the header is absent (so it can be reset), and
this happens even when the subsequent body read fails; it is unchanged on
304, on a non-ok response, and on a rejected request. -/
theorem etag_lifecycle_amended (cfg : Config) (s : ClientState)
    (r : Response) (e : String) (hf : s.hasFetch = true) :
    (mkClient cfg).etag = ""
    ∧ (r.ok = true → r.status ≠ 304 →
        (fetchToggles s (FetchOutcome.resolve r)).1.etag
          = (r.etagHeader).getD "")
    ∧ (r.status = 304 →
        (fetchToggles s (FetchOutcome.resolve r)).1.etag = s.etag)
    ∧ (r.ok = false →
        (fetchToggles s (FetchOutcome.resolve r)).1.etag = s.etag)
    ∧ (fetchToggles s (FetchOutcome.reject e)).1.etag = s.etag := by
  refine ⟨rfl, ?_, ?_, ?_, ?_⟩
  · intro hok h304
    simp only [fetchToggles, hf, if_true]
    rw [if_pos ⟨hok, h304⟩]
    cases hbd : r.body with
    | error raw => rfl
    | ok data =>
      simp only [storeToggles]
      split <;> rfl
  · intro h304
    simp [fetchToggles, hf, h304]
  · intro hokF
    by_cases h304 : r.status = 304 <;> simp [fetchToggles, hf, hokF, h304]
  · simp [fetchToggles, hf]

theorem etag_lifecycle_amended_witness :
    sampleClient.hasFetch = true
    ∧ ((mkClient sampleCfg).etag = ""
      ∧ (okResp.ok = true → okResp.status ≠ 304 →
          (fetchToggles sampleClient (FetchOutcome.resolve okResp)).1.etag
            = (okResp.etagHeader).getD "")
      ∧ (okResp.status = 304 →
          (fetchToggles sampleClient (FetchOutcome.resolve okResp)).1.etag
            = sampleClient.etag)
      ∧ (okResp.ok = false →
          (fetchToggles sampleClient (FetchOutcome.resolve okResp)).1.etag
            = sampleClient.etag)
      ∧ (fetchToggles sampleClient (FetchOutcome.reject "err")).1.etag
          = sampleClient.etag) :=
  ⟨rfl, etag_lifecycle_amended sampleCfg sampleClient okResp "err" rfl⟩

theorem mem_optParam (k0 k v : String) (o : Option String) :
    (k, v) ∈ optParam k0 o ↔ k = k0 ∧ o = some v := by
  cases o with
  | none => simp [optParam]
  | some w =>
    simp only [optParam, List.mem_singleton, Prod.mk.injEq,
      Option.some.injEq]
    constructor
    · rintro ⟨rfl, rfl⟩
      exact ⟨rfl, rfl⟩
    · rintro ⟨rfl, rfl⟩
      exact ⟨rfl, rfl⟩

theorem mem_propsParams (o : Option (List (String × String)))
    (k v : String) :
    (k, v) ∈ propsParams o ↔
      ∃ ps pk, o = some ps ∧ k = "properties[" ++ pk ++ "]"
        ∧ (pk, v) ∈ ps := by
  cases o with
  | none => simp [propsParams]
  | some ps =>
    simp only [propsParams, List.mem_map, Option.some.injEq]
    constructor
    · rintro ⟨⟨pk, pv⟩, hmem, heq⟩
      simp only [Prod.mk.injEq] at heq
      exact ⟨ps, pk, rfl, heq.1.symm, heq.2 ▸ hmem⟩
    · rintro ⟨ps2, pk, hps, rfl, hmem⟩
      cases hps
      exact ⟨(pk, v), hmem, rfl⟩

/-- C8: a pair `(k, v)` appears among the query parameters built from the
context exactly when `k` is the name of a defined context field with value
`v`, or `k` has the flattened form `properties[pk]` with `(pk, v)` an
entry of the `properties` map; in particular no parameter named
`properties` (a nested-object serialization) ever appears. -/
theorem context_query_params_characterization (ctx : IContext)
    (k v : String) :
    ((k, v) ∈ contextQueryParams ctx ↔
      (k = "appName" ∧ v = ctx.appName)
      ∨ (k = "environment" ∧ ctx.environment = some v)
      ∨ (k = "userId" ∧ ctx.userId = some v)
      ∨ (k = "sessionId" ∧ ctx.sessionId = some v)
      ∨ (k = "remoteAddress" ∧ ctx.remoteAddress = some v)
      ∨ (∃ ps pk, ctx.properties = some ps
          ∧ k = "properties[" ++ pk ++ "]" ∧ (pk, v) ∈ ps))
    ∧ (∀ w, ("properties", w) ∉ contextQueryParams ctx) := by
  have hmain : ∀ k2 v2 : String, (k2, v2) ∈ contextQueryParams ctx ↔
      (k2 = "appName" ∧ v2 = ctx.appName)
      ∨ (k2 = "environment" ∧ ctx.environment = some v2)
      ∨ (k2 = "userId" ∧ ctx.userId = some v2)
      ∨ (k2 = "sessionId" ∧ ctx.sessionId = some v2)
      ∨ (k2 = "remoteAddress" ∧ ctx.remoteAddress = some v2)
      ∨ (∃ ps pk, ctx.properties = some ps
          ∧ k2 = "properties[" ++ pk ++ "]" ∧ (pk, v2) ∈ ps) := by
    intro k2 v2
    simp only [contextQueryParams, List.mem_append, List.mem_singleton,
      Prod.mk.injEq, mem_optParam, mem_propsParams, or_assoc]
  refine ⟨hmain k v, ?_⟩
  intro w hw
  rw [hmain "properties" w] at hw
  rcases hw with ⟨hk, _⟩ | ⟨hk, _⟩ | ⟨hk, _⟩ | ⟨hk, _⟩ | ⟨hk, _⟩
    | ⟨ps, pk, _, hk, _⟩
  · exact absurd hk (by decide)
  · exact absurd hk (by decide)
  · exact absurd hk (by decide)
  · exact absurd hk (by decide)
  · exact absurd hk (by decide)
  · have hlen := congrArg String.length hk
    rw [String.length_append, String.length_append] at hlen
    have e1 : "properties".length = 10 := rfl
    have e2 : "properties[".length = 11 := rfl
    have e3 : "]".length = 1 := rfl
    rw [e1, e2, e3] at hlen
    omega

def suppliedNotAppliedCfg : Config :=
  { appName := "app", bootstrap := some [toggleA]
  , bootstrapOverride := false, storage0 := cacheStorage }

/-- C9 counterexample: with a bootstrap supplied but not applied
(override = false and a non-empty cache, so the snapshot after
initialization is the cache, not the bootstrap), the claim requires
`ready` to be emitted exactly once on the first successful body-bearing
synchronization; the code's guard tests whether a bootstrap was supplied
(`!this.bootstrap`), so `ready` is never emitted at all. -/
theorem ready_counterexample :
    isSuccessBody (FetchOutcome.resolve okResp) = true
    ∧ (init (mkClient suppliedNotAppliedCfg) "sid").1.toggles = [toggleB]
    ∧ countReady (lifetime suppliedNotAppliedCfg "sid"
        [FetchOutcome.resolve okResp]).2 = 0 := by
  refine ⟨by decide, rfl, by decide⟩

/-- C9 (amended): over any client lifetime `ready` is emitted at most
once; when no bootstrap was retained at construction it is emitted exactly
once as soon as one successful body-bearing synchronization occurs (and
never otherwise); when a bootstrap was retained, no synchronization ever
emits `ready`, and initialization emits it exactly when the bootstrap is
adopted (override set, or empty cache) — so a retained-but-not-adopted
bootstrap means `ready` is never emitted. -/
theorem ready_emission_amended (cfg : Config) (fresh : String)
    (outs : List FetchOutcome) (hf : cfg.hasFetch = true) :
    countReady (lifetime cfg fresh outs).2 ≤ 1
    ∧ ((mkClient cfg).bootstrap = none →
        countReady (lifetime cfg fresh outs).2
          = (if outs.any (fun o => isSuccessBody o) = true then 1 else 0))
    ∧ (∀ b, (mkClient cfg).bootstrap = some b →
        countReady (init (mkClient cfg) fresh).2
          = (if cfg.bootstrapOverride = true
              ∨ ((getRepo cfg.storage0).getD []).length = 0 then 1 else 0)
        ∧ countReady (runSyncs (init (mkClient cfg) fresh).1 outs).2 = 0) := by
  have hemit : (mkClient cfg).readyEventEmitted = false := rfl
  have hhf : (mkClient cfg).hasFetch = true := hf
  have hpres := init_preserves (mkClient cfg) fresh
  have hlc : countReady (lifetime cfg fresh outs).2
      = countReady (init (mkClient cfg) fresh).2
        + countReady (runSyncs (init (mkClient cfg) fresh).1 outs).2 := by
    simp [lifetime, countReady_append]
  have part2 : (mkClient cfg).bootstrap = none →
      countReady (lifetime cfg fresh outs).2
        = (if outs.any (fun o => isSuccessBody o) = true then 1 else 0) := by
    intro hbn
    have hi := init_no_bootstrap (mkClient cfg) fresh hbn
    have hr := runSyncs_ready_count (init (mkClient cfg) fresh).1 outs
      (by rw [hpres.1]; exact hbn) (by rw [hpres.2.2]; exact hhf)
    rw [hpres.2.1, hemit] at hr
    simp only [Bool.false_eq_true, if_false] at hr
    rw [hlc, hi.2, hr]
    simp [countReady, List.countP, List.countP.go, isReadyEvent]
  have part3 : ∀ b, (mkClient cfg).bootstrap = some b →
      countReady (init (mkClient cfg) fresh).2
        = (if cfg.bootstrapOverride = true
            ∨ ((getRepo cfg.storage0).getD []).length = 0 then 1 else 0)
      ∧ countReady (runSyncs (init (mkClient cfg) fresh).1 outs).2 = 0 := by
    intro b hbs
    refine ⟨init_ready_count_some (mkClient cfg) fresh b hbs, ?_⟩
    exact runSyncs_no_ready_bootstrap (init (mkClient cfg) fresh).1 outs b
      (by rw [hpres.1]; exact hbs)
  refine ⟨?_, part2, part3⟩
  cases hbs : (mkClient cfg).bootstrap with
  | none =>
    rw [part2 hbs]
    split <;> omega
  | some b =>
    obtain ⟨h1, h2⟩ := part3 b hbs
    rw [hlc, h1, h2]
    split <;> omega

theorem ready_emission_amended_witness :
    sampleCfg.hasFetch = true
    ∧ (countReady (lifetime sampleCfg "sid"
        [FetchOutcome.resolve okResp]).2 ≤ 1
      ∧ ((mkClient sampleCfg).bootstrap = none →
          countReady (lifetime sampleCfg "sid"
            [FetchOutcome.resolve okResp]).2
            = (if [FetchOutcome.resolve okResp].any
                (fun o => isSuccessBody o) = true then 1 else 0))
      ∧ (∀ b, (mkClient sampleCfg).bootstrap = some b →
          countReady (init (mkClient sampleCfg) "sid").2
            = (if sampleCfg.bootstrapOverride = true
                ∨ ((getRepo sampleCfg.storage0).getD []).length = 0
              then 1 else 0)
          ∧ countReady (runSyncs (init (mkClient sampleCfg) "sid").1
              [FetchOutcome.resolve okResp]).2 = 0)) :=
  ⟨rfl, ready_emission_amended sampleCfg "sid"
    [FetchOutcome.resolve okResp] rfl⟩

end Unleash
